import Mathlib

set_option maxHeartbeats 1000000

/-!
Shallow embedding of the upload-and-analyze orchestration core of
src/app.py: the transient-error classifier and backoff computation of
run_with_retries (lines 81-108), the ingestion poll loop (lines
161-164) and the analyze-button flow (lines 151-188).
-/

/-- Boolean test that the second list starts with the first list,
character-wise. -/
def leadsWith : List Char → List Char → Bool
  | [], _ => true
  | _ :: _, [] => false
  | a :: as, b :: bs => a == b && leadsWith as bs

/-- Substring containment on character lists, modelling the Python
containment operator on strings. -/
def hasSub (pat : List Char) : List Char → Bool
  | [] => leadsWith pat []
  | c :: t => leadsWith pat (c :: t) || hasSub pat t

/-- Substring containment on strings. -/
def strHas (hay pat : String) : Bool := hasSub pat.data hay.data

/-- ASCII lowercasing of a string, modelling the lower method on the
ASCII messages the classifier inspects. -/
def lowerStr (s : String) : String := String.mk (s.data.map Char.toLower)

/-- Transient rate-limit classifier from src/app.py line 92: the
message contains 429, or contains the exact string Quota exceeded, or
its lowercasing contains rate limit. -/
def isTransient (msg : String) : Bool :=
  strHas msg "429" || strHas msg "Quota exceeded" || strHas (lowerStr msg) "rate limit"

/-- Numeric value of a digit run. -/
def digitsToNat (ds : List Char) : ℕ :=
  ds.foldl (fun n c => 10 * n + (c.toNat - 48)) 0

/-- Value of a fractional digit run: the digits divided by ten to
their count. -/
def fracVal (ds : List Char) : ℚ :=
  (digitsToNat ds : ℚ) / 10 ^ ds.length

/-- Numeric value of a captured group string of the shape digits with
an optional dot and digits, modelling the float conversion applied to
the group. -/
def decValue (s : List Char) : ℚ :=
  let d1 := s.takeWhile Char.isDigit
  match s.dropWhile Char.isDigit with
  | '.' :: d2 => (digitsToNat d1 : ℚ) + fracVal (d2.takeWhile Char.isDigit)
  | _ => (digitsToNat d1 : ℚ)

/-- Match of the tail of the first hint pattern at a fixed position:
one or more digits, an optional dot-and-digits group, then the letter
s; yields the captured group. Shortening a greedy digit run can never
help this pattern, since a digit is neither a dot nor the letter s, so
maximal runs are faithful to backtracking search. -/
def p1Group (t : List Char) : Option (List Char) :=
  let d1 := t.takeWhile Char.isDigit
  let r1 := t.dropWhile Char.isDigit
  if d1.isEmpty then none
  else
    match r1 with
    | '.' :: r2 =>
        let d2 := r2.takeWhile Char.isDigit
        let r3 := r2.dropWhile Char.isDigit
        if d2.isEmpty then none
        else
          match r3 with
          | 's' :: _ => some (d1 ++ '.' :: d2)
          | _ => none
    | 's' :: _ => some d1
    | _ => none

/-- Leftmost-position search for the first hint pattern of src/app.py
line 94: the literal retry in, digits with an optional fraction, then
the letter s. -/
def searchRetryIn : List Char → Option (List Char)
  | [] => none
  | c :: t =>
      match (if leadsWith "retry in ".data (c :: t) then p1Group ((c :: t).drop 9) else none) with
      | some g => some g
      | none => searchRetryIn t

/-- Characters matched by the delimiter class of the second hint
pattern: a colon or Python whitespace. -/
def isDelim (c : Char) : Bool :=
  c = ':' || c = ' ' || c = '\t' || c = '\n' || c = '\r' || c = '\x0c' || c = '\x0b'

/-- Captured group at the end of the second hint pattern: digits with
an optional fractional part and nothing required afterwards. -/
def p2Group (t : List Char) : Option (List Char) :=
  let d1 := t.takeWhile Char.isDigit
  if d1.isEmpty then none
  else
    match t.dropWhile Char.isDigit with
    | '.' :: r2 =>
        let d2 := r2.takeWhile Char.isDigit
        if d2.isEmpty then some d1
        else some (d1 ++ '.' :: d2)
    | _ => some d1

/-- Match of the literal seconds followed by one or more delimiters
and a number, at a fixed position. A delimiter is never a digit, so
the maximal delimiter run is faithful to backtracking search. -/
def p2Sec (t : List Char) : Option (List Char) :=
  if leadsWith "seconds".data t then
    match t.drop 7 with
    | c :: _ => if isDelim c then p2Group ((t.drop 7).dropWhile isDelim) else none
    | [] => none
  else none

/-- Greedy any-character scan of the second hint pattern: the
rightmost position reachable without crossing a newline where the
seconds part matches wins, as in backtracking regex search. -/
def p2Rest : List Char → Option (List Char)
  | [] => none
  | c :: t =>
      match (if c = '\n' then none else p2Rest t) with
      | some g => some g
      | none => p2Sec (c :: t)

/-- Leftmost-position search for the second hint pattern of src/app.py
line 97: the literal retry_delay, any characters, the literal seconds,
delimiters, then a number. -/
def searchRetryDelay : List Char → Option (List Char)
  | [] => none
  | c :: t =>
      match (if leadsWith "retry_delay".data (c :: t) then p2Rest ((c :: t).drop 11) else none) with
      | some g => some g
      | none => searchRetryDelay t

/-- First hint pattern applied to a message string, yielding the
captured numeric substring. -/
def parseRetryIn (msg : String) : Option (List Char) := searchRetryIn msg.data

/-- Second hint pattern applied to a message string, yielding the
captured numeric substring. -/
def parseRetryDelay (msg : String) : Option (List Char) := searchRetryDelay msg.data

/-- Wait computation of src/app.py lines 94-98: first hint pattern,
then second hint pattern, else the minimum of 60 and 2 to the attempt
number. -/
def computeWait (msg : String) (attempt : ℕ) : ℚ :=
  match parseRetryIn msg with
  | some g => decValue g
  | none =>
      match parseRetryDelay msg with
      | some g => decValue g
      | none => min 60 ((2 : ℚ) ^ attempt)

/-- Terminal error of the retrying executor: a fatal re-raised error
or retry exhaustion. -/
inductive RunErr
  | fatal (msg : String)
  | exhausted (msg : String)
deriving DecidableEq

/-- Decidable equality for exception results. -/
instance instDecEqExcept {ε α : Type} [DecidableEq ε] [DecidableEq α] :
    DecidableEq (Except ε α) := fun a b =>
  match a, b with
  | Except.ok x, Except.ok y =>
      if h : x = y then Decidable.isTrue (congrArg Except.ok h)
      else Decidable.isFalse (fun hc => h (Except.ok.inj hc))
  | Except.ok _, Except.error _ => Decidable.isFalse (fun hc => Except.noConfusion hc)
  | Except.error _, Except.ok _ => Decidable.isFalse (fun hc => Except.noConfusion hc)
  | Except.error x, Except.error y =>
      if h : x = y then Decidable.isTrue (congrArg Except.error h)
      else Decidable.isFalse (fun hc => h (Except.error.inj hc))

/-- Observable record of one run_with_retries execution: final result,
number of action invocations, backoff sleeps in order. -/
structure RunResult (α : Type) where
  result : Except RunErr α
  calls : ℕ
  sleeps : List ℚ
deriving DecidableEq

/-- Message of the exhaustion error raised after the retry loop,
src/app.py lines 106-108. -/
def exhaustedMsg : String :=
  "Exceeded retries due to rate limits. Consider switching model or upgrading quota."

/-- Loop body of run_with_retries, src/app.py lines 87-105. The action
result at each attempt is given by a function indexed by the attempt
number starting at 1; the second argument of the recursion is the
number of attempts remaining. -/
def runAux (action : ℕ → Except String α) (attempt : ℕ) : ℕ → RunResult α
  | 0 => ⟨Except.error (RunErr.exhausted exhaustedMsg), 0, []⟩
  | r + 1 =>
      match action attempt with
      | Except.ok v => ⟨Except.ok v, 1, []⟩
      | Except.error msg =>
          if isTransient msg then
            ⟨(runAux action (attempt + 1) r).result,
             (runAux action (attempt + 1) r).calls + 1,
             computeWait msg attempt :: (runAux action (attempt + 1) r).sleeps⟩
          else ⟨Except.error (RunErr.fatal msg), 1, []⟩

/-- Embedding of run_with_retries, src/app.py lines 81-108. -/
def runWithRetries (action : ℕ → Except String α) (maxAttempts : ℕ) : RunResult α :=
  runAux action 1 maxAttempts

/-- Remote file processing state, whose name field is compared at
src/app.py line 161. -/
inductive FState
  | pending
  | processing
  | ready
  | failed
deriving DecidableEq

/-- Poll loop of src/app.py lines 161-164 with explicit fuel. Here
states k is the handle state after k refetches, states 0 being the
state returned by the upload call; the result is the number of
refetches performed before the state left processing, or none when the
fuel ran out with the state still processing. Each refetch is preceded
by one one-second sleep. -/
def pollLoop (states : ℕ → FState) : ℕ → ℕ → Option ℕ
  | 0, k => if states k = FState.processing then none else some k
  | fuel + 1, k =>
      if states k = FState.processing then pollLoop states fuel (k + 1) else some k

/-- Outcome of one analyze-button flow: the empty-question warning, a
successful analysis, or a caught error message. -/
inductive Outcome
  | emptyQuery
  | success (text : String)
  | failure (msg : String)
deriving DecidableEq

/-- Observable record of one analyze-button flow of src/app.py lines
151-188: outcome, network calls by kind, sleeps by kind, the state of
the handle at the moment it was passed to the analysis call, and
whether the temporary file still exists when the flow returns. -/
structure FlowResult where
  outcome : Outcome
  uploadCalls : ℕ
  pollCalls : ℕ
  analysisCalls : ℕ
  pollSleeps : ℕ
  backoffSleeps : List ℚ
  handlePassed : Option FState
  tempExists : Bool
deriving DecidableEq

/-- Embedding of the analyze-button flow, src/app.py lines 151-188:
validate the question, upload, poll while processing, then issue the
analysis call directly through the cached agent (line 175, a single
call, not routed through run_with_retries); any exception is caught
and the temporary file is removed in the finally block; on the
empty-question path only a warning is shown and no cleanup runs. -/
def analyze (question : String) (uploadRes : Except String Unit)
    (states : ℕ → FState) (analysisRes : Except String String)
    (fuel : ℕ) : Option FlowResult :=
  if question = "" then
    some ⟨Outcome.emptyQuery, 0, 0, 0, 0, [], none, true⟩
  else
    match uploadRes with
    | Except.error e => some ⟨Outcome.failure e, 1, 0, 0, 0, [], none, false⟩
    | Except.ok _ =>
        match pollLoop states fuel 0 with
        | none => none
        | some k =>
            match analysisRes with
            | Except.ok text =>
                some ⟨Outcome.success text, 1, k, 1, k, [], some (states k), false⟩
            | Except.error e =>
                some ⟨Outcome.failure e, 1, k, 1, k, [], some (states k), false⟩

/-- Classifier following the original spec words, for comparison with
the source classifier: contains 429, or contains quota exceeded in any
case, or contains rate limit in any case. -/
def specTransient (msg : String) : Bool :=
  strHas msg "429" || strHas (lowerStr msg) "quota exceeded" || strHas (lowerStr msg) "rate limit"

/-- Classifier following the amended spec words: contains 429, or
contains the exact case-sensitive string Quota exceeded, or contains
rate limit in any case. -/
def specTransientAmended (msg : String) : Bool :=
  strHas msg "429" || strHas msg "Quota exceeded" || strHas (lowerStr msg) "rate limit"

/-- Action that fails with a transient message on the first two
attempts and succeeds on the third. -/
def c1Action : ℕ → Except String String := fun attempt =>
  if attempt ≤ 2 then Except.error "429 rate limit" else Except.ok "The video shows a cat."

example : isTransient "429 rate limit" = true := by decide
example : parseRetryIn "quota: retry in 12.5s please" = some ['1', '2', '.', '5'] := by decide
example : parseRetryDelay "retry_delay \x7b seconds: 7 \x7d" = some ['7'] := by decide
example : computeWait "no hint here 429" 3 = 8 := by decide
example : computeWait "429 retry_delay \x7b seconds: 7 \x7d" 3 = 7 := by decide

/-- The retry loop of run_with_retries itself, had the analyze flow
used it, would absorb two transient failures and succeed on the third
attempt with two backoff sleeps of the fallback durations. -/
theorem runWithRetries_rate_limit_then_ok :
    runWithRetries c1Action 3 = ⟨Except.ok "The video shows a cat.", 3, [2, 4]⟩ := by
  decide

/-- A poll loop entered with a state other than processing returns at
once, with zero refetches. -/
theorem pollLoop_exit (states : ℕ → FState) (fuel k : ℕ)
    (h : states k ≠ FState.processing) : pollLoop states fuel k = some k := by
  cases fuel with
  | zero => simp [pollLoop, h]
  | succ f => simp [pollLoop, h]

/-- When the poll loop returns, the state at the returned index is not
processing. -/
theorem pollLoop_some_not_processing (states : ℕ → FState) :
    ∀ fuel k n, pollLoop states fuel k = some n → states n ≠ FState.processing := by
  intro fuel
  induction fuel with
  | zero =>
      intro k n h
      by_cases hk : states k = FState.processing
      · simp [pollLoop, hk] at h
      · simp [pollLoop, hk] at h
        exact h ▸ hk
  | succ f ih =>
      intro k n h
      by_cases hk : states k = FState.processing
      · exact ih (k + 1) n (by simpa [pollLoop, hk] using h)
      · simp [pollLoop, hk] at h
        exact h ▸ hk

/-- On a remote that stays in the processing state forever, the poll
loop never returns, whatever fuel it is given. -/
theorem pollLoop_const_processing :
    ∀ fuel k, pollLoop (fun _ => FState.processing) fuel k = none := by
  intro fuel
  induction fuel with
  | zero => intro k; simp [pollLoop]
  | succ f ih => intro k; simp [pollLoop, ih]

/-- The poll loop returns as soon as the state sequence leaves the
processing state within the available fuel. -/
theorem pollLoop_reaches (states : ℕ → FState) :
    ∀ fuel k, (∃ i, i ≤ fuel ∧ states (k + i) ≠ FState.processing) →
      ∃ n, pollLoop states fuel k = some n ∧ states n ≠ FState.processing := by
  intro fuel
  induction fuel with
  | zero =>
      rintro k ⟨i, hi, hs⟩
      have hz : i = 0 := Nat.le_zero.mp hi
      subst hz
      simp only [Nat.add_zero] at hs
      exact ⟨k, pollLoop_exit states 0 k hs, hs⟩
  | succ f ih =>
      rintro k ⟨i, hi, hs⟩
      by_cases hk : states k = FState.processing
      · have hi0 : i ≠ 0 := by
          intro h0
          subst h0
          simp only [Nat.add_zero] at hs
          exact hs hk
        obtain ⟨j, rfl⟩ := Nat.exists_eq_succ_of_ne_zero hi0
        have hj : j ≤ f := by omega
        have hs' : states (k + 1 + j) ≠ FState.processing := by
          have hx : k + 1 + j = k + (j + 1) := by omega
          rw [hx]
          exact hs
        obtain ⟨n, hn, hns⟩ := ih (k + 1) ⟨j, hj, hs'⟩
        exact ⟨n, by simpa [pollLoop, hk] using hn, hns⟩
      · exact ⟨k, pollLoop_exit states (f + 1) k hk, hk⟩

/-- Running the retry loop from a given attempt number, when every
remaining attempt fails with a transient message, exhausts exactly the
remaining attempts and sleeps once per attempt with the computed
durations. -/
theorem runAux_transient_all (action : ℕ → Except String String) (m : ℕ → String) :
    ∀ r a,
      (∀ k, a ≤ k → k < a + r → action k = Except.error (m k) ∧ isTransient (m k) = true) →
      runAux action a r
        = ⟨Except.error (RunErr.exhausted exhaustedMsg), r,
           (List.range r).map (fun i => computeWait (m (a + i)) (a + i))⟩ := by
  intro r
  induction r with
  | zero => intro a _; rfl
  | succ r ih =>
      intro a h
      have h0 := h a le_rfl (by omega)
      have hrest := ih (a + 1) (fun k hk1 hk2 => h k (by omega) (by omega))
      have hrange : (List.range (r + 1)).map (fun i => computeWait (m (a + i)) (a + i))
          = computeWait (m a) a
              :: (List.range r).map (fun i => computeWait (m (a + 1 + i)) (a + 1 + i)) := by
        rw [List.range_succ_eq_map, List.map_cons, List.map_map]
        refine congrArg₂ List.cons (by simp) ?_
        refine congrArg (fun f => List.map f (List.range r)) ?_
        funext i
        simp only [Function.comp_apply]
        have hx : a + (i + 1) = a + 1 + i := by omega
        rw [Nat.succ_eq_add_one, hx]
      rw [hrange]
      simp [runAux, h0.1, h0.2, hrest]

/-- Claim C1 (code bug): evaluation of the analyze flow at the failing
input. The remote handle is immediately ready and the first analysis
response is a transient rate-limit error, yet the flow returns a
Failure after exactly one analysis call and zero backoff sleeps: the
call at src/app.py line 175 goes directly through the cached agent and
never through run_with_retries, contradicting the intended routing
through the retrying executor (three calls, two sleeps, Success). -/
theorem C1_flow_rate_limit_no_retry :
    analyze "Summarize the video" (Except.ok ()) (fun _ => FState.ready)
        (Except.error "429 rate limit") 5
      = some ⟨Outcome.failure "429 rate limit", 1, 0, 1, 0, [], some FState.ready, false⟩ := by
  decide

/-- Claim C2 counterexample: the message quota exceeded, written in
lower case, is classified fatal by the source classifier although the
claim requires any-case matching to classify it as transient. -/
theorem C2_counterexample :
    isTransient "quota exceeded" = false ∧ specTransient "quota exceeded" = true := by
  decide

/-- Claim C2 (amended): a message is classified transient if and only
if it contains 429, or contains the exact case-sensitive string Quota
exceeded, or contains rate limit in any case; a fatal first-attempt
failure is re-raised immediately with one call and no sleep, while a
transient one is followed by a computed backoff sleep. -/
theorem C2_amended (msg : String) (action : ℕ → Except String String) (maxAttempts : ℕ)
    (hmax : 1 ≤ maxAttempts) (hact : action 1 = Except.error msg) :
    isTransient msg = specTransientAmended msg
    ∧ (specTransientAmended msg = false →
        runWithRetries action maxAttempts = ⟨Except.error (RunErr.fatal msg), 1, []⟩)
    ∧ (specTransientAmended msg = true →
        (runWithRetries action maxAttempts).sleeps.head? = some (computeWait msg 1)) := by
  obtain ⟨r, rfl⟩ : ∃ r, maxAttempts = r + 1 := ⟨maxAttempts - 1, by omega⟩
  refine ⟨rfl, ?_, ?_⟩
  · intro h
    have h' : isTransient msg = false := h
    simp [runWithRetries, runAux, hact, h']
  · intro h
    have h' : isTransient msg = true := h
    simp [runWithRetries, runAux, hact, h']

/-- Claim C2 witness: the amended classification applied to a concrete
fatal message. -/
theorem C2_amended_witness :
    isTransient "bad api key" = specTransientAmended "bad api key"
    ∧ (specTransientAmended "bad api key" = false →
        runWithRetries (fun _ => (Except.error "bad api key" : Except String String)) 3
          = ⟨Except.error (RunErr.fatal "bad api key"), 1, []⟩)
    ∧ (specTransientAmended "bad api key" = true →
        (runWithRetries (fun _ => (Except.error "bad api key" : Except String String)) 3).sleeps.head?
          = some (computeWait "bad api key" 1)) :=
  C2_amended "bad api key" (fun _ => Except.error "bad api key") 3 (by decide) rfl

/-- Claim C3 counterexample: a flow entered with the empty question
returns with the temporary file still present, because the warning
branch of src/app.py line 153 is outside the try-finally block that
performs the cleanup. -/
theorem C3_counterexample :
    analyze "" (Except.ok ()) (fun _ => FState.ready) (Except.ok "done") 3
      = some ⟨Outcome.emptyQuery, 0, 0, 0, 0, [], none, true⟩ := by
  decide

/-- Claim C3 (amended): on every completed run of the analyze flow
with a non-empty question, success or failure at any stage, the
temporary file is removed before the flow returns; on the
empty-question validation path no cleanup runs. -/
theorem C3_amended (question : String) (uploadRes : Except String Unit)
    (states : ℕ → FState) (analysisRes : Except String String) (fuel : ℕ) (r : FlowResult)
    (hq : question ≠ "") (h : analyze question uploadRes states analysisRes fuel = some r) :
    r.tempExists = false := by
  cases uploadRes with
  | error e =>
      simp [analyze, hq] at h
      rw [← h]
  | ok u =>
      cases hp : pollLoop states fuel 0 with
      | none => simp [analyze, hq, hp] at h
      | some k =>
          cases analysisRes with
          | ok text =>
              simp [analyze, hq, hp] at h
              rw [← h]
          | error e =>
              simp [analyze, hq, hp] at h
              rw [← h]

/-- Claim C3 witness: the amended cleanup statement at a concrete
successful run. -/
theorem C3_amended_witness :
    (⟨Outcome.success "fine", 1, 0, 1, 0, [], some FState.ready, false⟩ : FlowResult).tempExists
      = false :=
  C3_amended "ok?" (Except.ok ()) (fun _ => FState.ready) (Except.ok "fine") 1
    ⟨Outcome.success "fine", 1, 0, 1, 0, [], some FState.ready, false⟩
    (by decide) (by decide)

/-- Claim C4 counterexample: a flow whose handle is already in the
failed state when the poll loop is entered does not fail with an
ingestion error; the loop exits at once and the flow proceeds to a
successful analysis, because src/app.py line 161 only tests for the
processing state. -/
theorem C4_counterexample :
    analyze "describe" (Except.ok ()) (fun _ => FState.failed) (Except.ok "answer") 3
      = some ⟨Outcome.success "answer", 1, 0, 1, 0, [], some FState.failed, false⟩ := by
  decide

/-- Claim C4 (amended): when the handle state at entry is anything
other than processing, ready or failed alike, the poll loop returns
immediately with no poll call and no sleep; no ingestion-failed error
is raised for a failed handle and the flow proceeds straight to the
single analysis call with the handle as-is. -/
theorem C4_amended (question : String) (states : ℕ → FState)
    (analysisRes : Except String String) (fuel : ℕ) (r : FlowResult)
    (hq : question ≠ "") (hs : states 0 ≠ FState.processing)
    (h : analyze question (Except.ok ()) states analysisRes fuel = some r) :
    r.pollCalls = 0 ∧ r.pollSleeps = 0 ∧ r.analysisCalls = 1
      ∧ r.handlePassed = some (states 0) := by
  have hp := pollLoop_exit states fuel 0 hs
  cases analysisRes with
  | ok text =>
      simp [analyze, hq, hp] at h
      rw [← h]
      exact ⟨rfl, rfl, rfl, rfl⟩
  | error e =>
      simp [analyze, hq, hp] at h
      rw [← h]
      exact ⟨rfl, rfl, rfl, rfl⟩

/-- Claim C4 witness: the amended immediate-exit statement at a
concrete ready handle. -/
theorem C4_amended_witness :
    (⟨Outcome.success "t", 1, 0, 1, 0, [], some FState.ready, false⟩ : FlowResult).pollCalls = 0
    ∧ (⟨Outcome.success "t", 1, 0, 1, 0, [], some FState.ready, false⟩ : FlowResult).pollSleeps = 0
    ∧ (⟨Outcome.success "t", 1, 0, 1, 0, [], some FState.ready, false⟩ : FlowResult).analysisCalls = 1
    ∧ (⟨Outcome.success "t", 1, 0, 1, 0, [], some FState.ready, false⟩ : FlowResult).handlePassed
        = some FState.ready :=
  C4_amended "q" (fun _ => FState.ready) (Except.ok "t") 2
    ⟨Outcome.success "t", 1, 0, 1, 0, [], some FState.ready, false⟩
    (by decide) (by decide) (by decide)

/-- Claim C5 counterexample: a handle that turns failed after one poll
is nevertheless passed to the analysis call, so the invariant that
only ready handles reach analysis does not hold in the code. -/
theorem C5_counterexample :
    analyze "what" (Except.ok ())
        (fun k => if k = 0 then FState.processing else FState.failed)
        (Except.error "boom") 5
      = some ⟨Outcome.failure "boom", 1, 1, 1, 1, [], some FState.failed, false⟩ := by
  decide

/-- Claim C5 (amended): the handle is passed to the analysis call
exactly when polling stops, which guarantees only that its state is
not processing; a failed or pending handle is still included in the
analysis request. -/
theorem C5_amended (question : String) (uploadRes : Except String Unit)
    (states : ℕ → FState) (analysisRes : Except String String) (fuel : ℕ)
    (r : FlowResult) (st : FState)
    (h : analyze question uploadRes states analysisRes fuel = some r)
    (hpass : r.handlePassed = some st) :
    st ≠ FState.processing := by
  by_cases hq : question = ""
  · subst hq
    simp [analyze] at h
    rw [← h] at hpass
    simp at hpass
  · cases uploadRes with
    | error e =>
        simp [analyze, hq] at h
        rw [← h] at hpass
        simp at hpass
    | ok u =>
        cases hp : pollLoop states fuel 0 with
        | none => simp [analyze, hq, hp] at h
        | some k =>
            have hk := pollLoop_some_not_processing states fuel 0 k hp
            cases analysisRes with
            | ok text =>
                simp [analyze, hq, hp] at h
                rw [← h] at hpass
                simp at hpass
                rw [← hpass]
                exact hk
            | error e =>
                simp [analyze, hq, hp] at h
                rw [← h] at hpass
                simp at hpass
                rw [← hpass]
                exact hk

/-- Claim C5 witness: the amended guarantee at a concrete run whose
handle ends failed. -/
theorem C5_amended_witness : FState.failed ≠ FState.processing :=
  C5_amended "q2" (Except.ok ()) (fun _ => FState.failed) (Except.ok "r") 1
    ⟨Outcome.success "r", 1, 0, 1, 0, [], some FState.failed, false⟩ FState.failed
    (by decide) (by decide)

/-- Claim C6 counterexample: on a remote that reports processing
forever, the poll loop never returns however much fuel it is granted;
there is no timeout and no ingestion-timeout error in the code. -/
theorem C6_counterexample :
    ¬ ∃ fuel, (pollLoop (fun _ => FState.processing) fuel 0).isSome = true := by
  rintro ⟨fuel, h⟩
  rw [pollLoop_const_processing fuel 0] at h
  simp at h

/-- Claim C6 (amended): the poll loop has no timeout; it terminates
exactly when the fetched state sequence eventually leaves the
processing state, and in that case returns an index at which the state
is no longer processing. -/
theorem C6_amended (states : ℕ → FState)
    (h : ∃ k, states k ≠ FState.processing) :
    ∃ fuel n, pollLoop states fuel 0 = some n ∧ states n ≠ FState.processing := by
  obtain ⟨k, hk⟩ := h
  obtain ⟨n, hn, hns⟩ := pollLoop_reaches states k 0 ⟨k, le_rfl, by simpa using hk⟩
  exact ⟨k, n, hn, hns⟩

/-- Claim C6 witness: the amended termination statement at a remote
that is ready at once. -/
theorem C6_amended_witness :
    ∃ fuel n, pollLoop (fun _ => FState.ready) fuel 0 = some n
      ∧ FState.ready ≠ FState.processing :=
  C6_amended (fun _ => FState.ready) ⟨0, by decide⟩

/-- Claim C7: for a transient first-attempt failure the first backoff
sleep equals the computed wait; the wait prefers the first hint
pattern, then the second, and otherwise falls back to the minimum of
60 and 2 to the attempt number; a message carrying retry in 12.5s
yields exactly twelve and a half seconds and a retry-delay message
carrying seconds: 7 yields exactly seven. -/
theorem C7_backoff_rule :
    (∀ (msg : String) (action : ℕ → Except String String) (maxAttempts : ℕ),
        1 ≤ maxAttempts → action 1 = Except.error msg → isTransient msg = true →
        (runWithRetries action maxAttempts).sleeps.head? = some (computeWait msg 1))
    ∧ computeWait "You exceeded your quota, rate limit: retry in 12.5s." 3 = 25 / 2
    ∧ computeWait "429 error. retry_delay \x7b seconds: 7 \x7d." 3 = 7
    ∧ (∀ (msg : String) (attempt : ℕ) (g : List Char),
        parseRetryIn msg = some g → computeWait msg attempt = decValue g)
    ∧ (∀ (msg : String) (attempt : ℕ) (g : List Char),
        parseRetryIn msg = none → parseRetryDelay msg = some g →
        computeWait msg attempt = decValue g)
    ∧ (∀ (msg : String) (attempt : ℕ),
        parseRetryIn msg = none → parseRetryDelay msg = none →
        computeWait msg attempt = min 60 ((2 : ℚ) ^ attempt)) := by
  refine ⟨?_, ?_, by decide, ?_, ?_, ?_⟩
  · intro msg action maxAttempts hmax hact htr
    obtain ⟨r, rfl⟩ : ∃ r, maxAttempts = r + 1 := ⟨maxAttempts - 1, by omega⟩
    simp [runWithRetries, runAux, hact, htr]
  · have hp : parseRetryIn "You exceeded your quota, rate limit: retry in 12.5s."
        = some ['1', '2', '.', '5'] := by decide
    have hv : decValue ['1', '2', '.', '5'] = 25 / 2 := by
      have h1 : digitsToNat ['1', '2'] = 12 := by decide
      have h2 : digitsToNat ['5'] = 5 := by decide
      have hd : decValue ['1', '2', '.', '5']
          = (digitsToNat ['1', '2'] : ℚ) + (digitsToNat ['5'] : ℚ) / 10 ^ 1 := rfl
      rw [hd, h1, h2]
      norm_num
    simp [computeWait, hp, hv]
  · intro msg attempt g hg
    simp [computeWait, hg]
  · intro msg attempt g hg1 hg2
    simp [computeWait, hg1, hg2]
  · intro msg attempt hg1 hg2
    simp [computeWait, hg1, hg2]

/-- Claim C7 witness: the backoff rule applied at a concrete transient
failure. -/
theorem C7_backoff_rule_witness :
    (runWithRetries (fun _ => (Except.error "rate limit hit" : Except String String)) 2).sleeps.head?
      = some (computeWait "rate limit hit" 1) :=
  C7_backoff_rule.1 "rate limit hit" (fun _ => Except.error "rate limit hit") 2
    (by decide) rfl (by decide)

/-- Claim C8: after maxAttempts consecutive transient failures the
executor fails with the retry-exhausted error whose message advises
switching model or upgrading quota, the action is invoked exactly
maxAttempts times and never once more, and one computed sleep is
recorded per attempt. -/
theorem C8_retry_exhausted (maxAttempts : ℕ) (action : ℕ → Except String String)
    (m : ℕ → String) (_hmax : 1 ≤ maxAttempts)
    (h : ∀ k, 1 ≤ k → k ≤ maxAttempts →
      action k = Except.error (m k) ∧ isTransient (m k) = true) :
    runWithRetries action maxAttempts
      = ⟨Except.error (RunErr.exhausted exhaustedMsg), maxAttempts,
         (List.range maxAttempts).map (fun i => computeWait (m (1 + i)) (1 + i))⟩
    ∧ strHas exhaustedMsg "switching model" = true
    ∧ strHas exhaustedMsg "quota" = true := by
  refine ⟨?_, by decide, by decide⟩
  exact runAux_transient_all action m maxAttempts 1 (fun k hk1 hk2 => h k hk1 (by omega))

/-- Claim C8 witness: exhaustion at a concrete single-attempt policy
with a transient failure. -/
theorem C8_retry_exhausted_witness :
    runWithRetries (fun _ => (Except.error "429" : Except String String)) 1
      = ⟨Except.error (RunErr.exhausted exhaustedMsg), 1,
         (List.range 1).map (fun i => computeWait "429" (1 + i))⟩
    ∧ strHas exhaustedMsg "switching model" = true
    ∧ strHas exhaustedMsg "quota" = true :=
  C8_retry_exhausted 1 (fun _ => Except.error "429") (fun _ => "429") (by decide)
    (fun k hk1 hk2 => ⟨rfl, (by decide : isTransient "429" = true)⟩)

/-- Claim C9: with the empty question the flow stops at validation
with the empty-query outcome, before any upload, poll or analysis
call, and performs no sleep of either kind. -/
theorem C9_empty_query (uploadRes : Except String Unit) (states : ℕ → FState)
    (analysisRes : Except String String) (fuel : ℕ) :
    analyze "" uploadRes states analysisRes fuel
      = some ⟨Outcome.emptyQuery, 0, 0, 0, 0, [], none, true⟩ := by
  rfl

/-- Claim C9 witness: the empty-question validation at concrete
collaborators that would fail if ever contacted. -/
theorem C9_empty_query_witness :
    analyze "" (Except.error "upload broken") (fun _ => FState.processing)
        (Except.error "x") 0
      = some ⟨Outcome.emptyQuery, 0, 0, 0, 0, [], none, true⟩ :=
  C9_empty_query (Except.error "upload broken") (fun _ => FState.processing)
    (Except.error "x") 0

/-- Claim C10: a run of maxAttempts consecutive transient failures
performs exactly maxAttempts computed backoff sleeps, one per failed
attempt, including one after the final attempt even though no further
attempt can follow it. -/
theorem C10_sleep_after_final_attempt (maxAttempts : ℕ) (action : ℕ → Except String String)
    (m : ℕ → String) (hmax : 1 ≤ maxAttempts)
    (h : ∀ k, 1 ≤ k → k ≤ maxAttempts →
      action k = Except.error (m k) ∧ isTransient (m k) = true) :
    (runWithRetries action maxAttempts).sleeps
        = (List.range maxAttempts).map (fun i => computeWait (m (1 + i)) (1 + i))
    ∧ (runWithRetries action maxAttempts).sleeps.length = maxAttempts
    ∧ (runWithRetries action maxAttempts).sleeps.getLast?
        = some (computeWait (m maxAttempts) maxAttempts) := by
  have he := runAux_transient_all action m maxAttempts 1 (fun k hk1 hk2 => h k hk1 (by omega))
  have hs : (runWithRetries action maxAttempts).sleeps
      = (List.range maxAttempts).map (fun i => computeWait (m (1 + i)) (1 + i)) := by
    simp only [runWithRetries]
    rw [he]
  refine ⟨hs, ?_, ?_⟩
  · rw [hs]
    simp
  · rw [hs]
    obtain ⟨r, rfl⟩ : ∃ r, maxAttempts = r + 1 := ⟨maxAttempts - 1, by omega⟩
    rw [List.range_succ, List.map_append]
    simp only [List.map_cons, List.map_nil, List.getLast?_concat]
    rw [Nat.add_comm 1 r]

/-- Claim C10 witness: two transient failures under a two-attempt
policy yield two sleeps, the last one computed for the final attempt. -/
theorem C10_sleep_after_final_attempt_witness :
    (runWithRetries (fun _ => (Except.error "rate limit" : Except String String)) 2).sleeps
        = (List.range 2).map (fun i => computeWait "rate limit" (1 + i))
    ∧ (runWithRetries (fun _ => (Except.error "rate limit" : Except String String)) 2).sleeps.length
        = 2
    ∧ (runWithRetries (fun _ => (Except.error "rate limit" : Except String String)) 2).sleeps.getLast?
        = some (computeWait "rate limit" 2) :=
  C10_sleep_after_final_attempt 2 (fun _ => Except.error "rate limit") (fun _ => "rate limit")
    (by decide) (fun k hk1 hk2 => ⟨rfl, (by decide : isTransient "rate limit" = true)⟩)
